import Mathlib

/-!
Verification development for the `erred` error-normalization middleware
(`src/index.ts`). We shallowly embed the error data model, the default
recursive formatter `format`, the plugin-resolution loop and the
`handleError` dispatcher, and prove the spec's testable properties
against them.
-/

namespace Erred

/-- A JSON-like value: models the duck-typed values carried by error
fields (`code`, `property`, `value`, `meta` entries). `undef` models the
JavaScript `undefined` value read from an absent property. -/
inductive JVal where
  | undef : JVal
  | str : String → JVal
  | num : Int → JVal
  | bool : Bool → JVal
deriving DecidableEq

/-- A plain record of string keys to JSON-like values, used for the
`meta` field of errors. -/
abbrev MetaRec := List (String × JVal)

/-- The scalar (non-recursive) fields of an error object, probed by
presence in `format` and `handleError`. `none` in an `Option` field
means the property key is absent from the object. `isHTTP` records
nominal membership in the external taxonomy: the result of the
`instanceof errors.HTTPError` test. -/
structure ErrFields where
  message : String
  name : String := "Error"
  code : Option JVal := none
  meta : Option MetaRec := none
  property : Option JVal := none
  value : Option JVal := none
  status : Nat := 0
  redirectURL : Option String := none
  stack : Option String := none
  isHTTP : Bool := false
deriving DecidableEq

/-- An error value as consumed by the formatter: either a single error
object (scalar fields, an optional `underlyingError` and an optional
`cause`, both possibly nested), or an ordered sequence of error values
(a JavaScript array, possibly malformed/nested). -/
inductive ErrVal where
  | obj : ErrFields → Option ErrVal → Option ErrVal → ErrVal
  | arr : List ErrVal → ErrVal

/-- A single (non-array) error object, as passed to the middleware and
as returned by plugins. -/
structure Err where
  fields : ErrFields
  underlying : Option ErrVal := none
  cause : Option ErrVal := none

/-- View a single error object as an error value for the formatter. -/
def Err.toVal (e : Err) : ErrVal := .obj e.fields e.underlying e.cause

/-- The transport request object; opaque to the middleware, passed
through to plugins and integrations. -/
structure Req where
  id : Nat := 0
deriving DecidableEq

/-- The transport response object. The middleware only issues
instructions to it (status / end / redirect / json), so we model only
its data surface; its callable members are not data. -/
structure Res where
  statusCode : Nat := 200
deriving DecidableEq

/-- The data-only snapshot of the response passed to integrations:
the spread copy carries the data fields and none of the prototype's
callable members, and is a fresh copy, so mutating it cannot alter the
in-flight response. -/
structure ResSnap where
  statusCode : Nat
deriving DecidableEq

/-- Build the snapshot handed to integrations (the spread copy of the
response object at `integration(error, req, ...res-spread)`). -/
def snapshotRes (r : Res) : ResSnap := ⟨r.statusCode⟩

/-- An integration callback, identified opaquely; the handler records
each invocation together with the arguments it passes. -/
structure Integ where
  id : Nat := 0
deriving DecidableEq

/-- A classifier plugin: receives the raw error and the request,
returns an error object or nothing (`undefined`). -/
def Plugin := Err → Req → Option Err

/-- The result of a formatter: either a single formatted error object
(fields `message`, `name`, optional `code`, `errors`, `meta`, `stack` of
`DefaultErrorObject`), or an array of results. By construction the
default formatter's arrays contain only single objects. -/
inductive FmtRes where
  | one : String → String → Option JVal → Option FmtRes → Option MetaRec → Option String → FmtRes
  | many : List FmtRes → FmtRes

/-- Is the formatted result an array (`Array.isArray`)? -/
def FmtRes.isMany : FmtRes → Bool
  | .many _ => true
  | .one _ _ _ _ _ _ => false

/-- The `message` field of a single formatted object, `none` on arrays. -/
def FmtRes.rootMessage : FmtRes → Option String
  | .one m _ _ _ _ _ => some m
  | .many _ => none

/-- The `meta` field of a single formatted object, `none` on arrays. -/
def FmtRes.metaOf : FmtRes → Option MetaRec
  | .one _ _ _ _ mt _ => mt
  | .many _ => none

/-- Overwrite the `stack` field of a formatted object (the dispatcher's
`errorObject.stack = err.stack`). On an array the JavaScript assignment
attaches a non-index property that JSON serialization drops, so it is
the identity on the serialized value. -/
def FmtRes.setStack : FmtRes → Option String → FmtRes
  | .one m n c e mt _, s => .one m n c e mt s
  | .many os, _ => .many os

/-- The error thrown by the default formatter at the recursion ceiling:
RangeError with message given at `format`, line 215. -/
def rangeErr : Err :=
  { fields := { message := "Unable to process a depth greater than 10", name := "RangeError" } }

/-- The `meta` object synthesized from the `property` and `value`
fields (reading an absent key yields `undefined`). -/
def propValMeta (p v : Option JVal) : MetaRec :=
  [("property", p.getD .undef), ("value", v.getD .undef)]

/-- Build the formatted object for a single error from its fields and
the already-formatted underlying errors: `message` and `name` always,
`code` when present, `errors` from the underlying errors, `meta` copied
when present but unconditionally overwritten by the synthesized
property/value object when either of those fields is present. -/
def mkErrorObject (f : ErrFields) (errs : Option FmtRes) : FmtRes :=
  .one f.message f.name f.code errs
    (if f.property.isSome || f.value.isSome then some (propValMeta f.property f.value) else f.meta)
    none

mutual

/-- The default formatter `format(error, depth)` (lines 213-248):
throws past depth 10; maps itself over arrays at the same depth and
drops array-shaped results; otherwise builds the formatted object,
formatting the underlying error at depth + 1. Thrown errors are
modelled as `Except.error`. -/
def formatV : ErrVal → Nat → Except Err FmtRes
  | e, depth =>
    if depth > 10 then .error rangeErr
    else
      match e with
      | .arr es =>
          (formatL es depth).map (fun rs => .many (rs.filter (fun r => !r.isMany)))
      | .obj f u _cause => do
          let errs ← match u with
            | some v => do
                let r ← formatV v (depth + 1)
                pure (some r)
            | none => pure none
          pure (mkErrorObject f errs)

/-- Map the formatter over the elements of an array, left to right,
propagating the first thrown error (`error.map(el => format(el, depth))`). -/
def formatL : List ErrVal → Nat → Except Err (List FmtRes)
  | [], _ => .ok []
  | e :: es, depth => do
      let r ← formatV e depth
      let rs ← formatL es depth
      pure (r :: rs)

end

/-!
External collaborators, modelled at their interface boundary.
-/

/-- Modelled from the spec: the external `statuses` package's table of
empty-body status codes (`_.empty`), absent from src/. -/
def emptyStatuses : List Nat := [204, 205, 304]

/-- Modelled from the spec: the external `statuses` package's table of
redirect status codes (`_.redirect`), absent from src/. -/
def redirectStatuses : List Nat := [300, 301, 302, 303, 305, 307, 308]

/-- `isEmpty(error)`: the status is classified empty-body. -/
def isEmptyStatus (s : Nat) : Bool := emptyStatuses.contains s

/-- `isRedirect(error)`: the status is classified redirect. -/
def isRedirectStatus (s : Nat) : Bool := redirectStatuses.contains s

/-- Modelled from the spec: the `InternalServerError` constructor of the
external error-taxonomy library `@hndlr/errors` (absent from src/): a
canonical HTTP error of status 500 with the given message and
underlying errors, nominally a member of the taxonomy. -/
def InternalServerError (message : String) (underlying : List ErrVal) : Err :=
  { fields := { message, name := "InternalServerError", status := 500, isHTTP := true }
    underlying := some (.arr underlying) }

/-- A JavaScript TypeError raised by reading a property of `undefined`
(a run-time crash path of the dispatcher that the resolution invariant
makes unreachable). -/
def undefReadErr : Err :=
  { fields := { message := "Cannot read properties of undefined", name := "TypeError" } }

/-!
The handler: plugin resolution and dispatch (`handleError`).
-/

/-- The match test of the resolution loop (line 137): the returned
value is non-nullish and nominally a canonical HTTP error. -/
def isMatch : Option Err → Bool
  | some v => v.fields.isHTTP
  | none => false

/-- The built-in pass-through classifier (lines 46-48): returns the raw
error itself exactly when it is already nominally canonical. -/
def defaultPlugin : Plugin := fun err _req =>
  if err.fields.isHTTP then some err else none

/-- The resolution loop (lines 133-140): walk the plugin stack in
order; each iteration stores the plugin's return in the `error`
variable (the accumulator) and stops at the first nominally canonical
one. Returns the final `error` variable and the `match` flag. -/
def runChain : List Plugin → Err → Req → Option Err → Option Err × Bool
  | [], _, _, error => (error, false)
  | p :: rest, err, req, _ =>
      let e := p err req
      if isMatch e then (e, true) else runChain rest err req e

/-- The handler configuration after `Object.assign` over the defaults:
all fields resolved. A formatter receives the error value and the
depth, and either returns a result or throws. -/
structure Opts where
  stack : Bool
  default500 : Bool
  formatter : ErrVal → Nat → Except Err FmtRes
  integrations : List Integ := []

/-- The fallback of line 151: an `InternalServerError` carrying the raw
error's message, the raw error as its single underlying error, and the
raw error as `cause`. -/
def default500Fallback (err : Err) : Err :=
  { InternalServerError err.fields.message [err.toVal] with cause := some err.toVal }

/-- The fallback of line 171 when formatting threw `ex`: an
`InternalServerError` with the fixed parse-failure message, carrying
the thrown error as its single underlying error and as `cause`. -/
def parseFailFallback (ex : Err) : Err :=
  { InternalServerError "Failed to parse an error object" [ex.toVal] with cause := some ex.toVal }

/-- One recorded integration invocation: the callback together with the
arguments the handler passes it. -/
abbrev IntegCall := Integ × Err × Req × ResSnap

/-- What one handler run did: the integration invocations it performed,
in order, followed by the outcome it emitted. -/
inductive Outcome where
  | next : Err → Outcome
  | emptyResp : Nat → Outcome
  | redirectResp : Nat → String → Outcome
  | jsonResp : Nat → FmtRes → Nat → Outcome

/-- The result of a completed handler run: the integration calls made
(all of them strictly before the response is emitted) and the emitted
outcome. A thrown (uncaught) exception is `Except.error` instead. -/
structure HandleResult where
  calls : List IntegCall
  outcome : Outcome

/-- The JSON tail of the handler (lines 175-189): optionally overwrite
the formatted object's stack with the raw error's stack, invoke each
integration in order with the final error, the request and the response
snapshot, then emit the JSON envelope with the final error's status
both as transport status and in the envelope's meta. -/
def mkJson (opts : Opts) (err : Err) (req : Req) (res : Res) (error : Err) (errorObject : FmtRes) :
    HandleResult :=
  let errorObject := if opts.stack then errorObject.setStack err.fields.stack else errorObject
  let calls := opts.integrations.map (fun g => (g, error, req, snapshotRes res))
  ⟨calls, .jsonResp error.fields.status errorObject error.fields.status⟩

/-- The dispatch tail of `handleError` on the resolved error (lines
154-189): short-circuit empty-class statuses with an empty body and
redirect-class statuses with a Location instruction (reading a missing
`redirectURL` crashes); otherwise format with the configured formatter,
recovering from a thrown formatting failure by formatting the
parse-failure fallback with the configured formatter again (a second
failure propagates uncaught), then emit the JSON envelope. -/
def dispatch (opts : Opts) (err : Err) (req : Req) (res : Res) (error : Err) :
    Except Err HandleResult :=
  if isEmptyStatus error.fields.status then
    .ok ⟨[], .emptyResp error.fields.status⟩
  else if isRedirectStatus error.fields.status then
    match error.fields.redirectURL with
    | some u => .ok ⟨[], .redirectResp error.fields.status u⟩
    | none => .error undefReadErr
  else
    match opts.formatter error.toVal 0 with
    | .ok errorObject => .ok (mkJson opts err req res error errorObject)
    | .error ex =>
        let error := parseFailFallback ex
        match opts.formatter error.toVal 0 with
        | .ok errorObject => .ok (mkJson opts err req res error errorObject)
        | .error ex2 => .error ex2

/-- `handleError` (lines 116-190): resolve through the chain; defer to
`next` with the raw error when unmatched and `default500` is off;
substitute the 500 fallback when unmatched and `default500` is on;
then dispatch on the resolved error. -/
def handleError (opts : Opts) (chain : List Plugin) (err : Err) (req : Req) (res : Res) :
    Except Err HandleResult :=
  let r := runChain chain err req none
  if !r.2 && !opts.default500 then
    .ok ⟨[], .next err⟩
  else
    match (if opts.default500 && !r.2 then some (default500Fallback err) else r.1) with
    | none => .error undefReadErr
    | some error => dispatch opts err req res error

/-- The nominally canonical content of a plugin's return value: the
returned value when it passes the match test of line 137, nothing
otherwise. Two plugin returns with the same canonical content are
indistinguishable to the handler. -/
def canonicalOf (o : Option Err) : Option Err :=
  if isMatch o then o else none

mutual

/-- The depth of the deepest chain of `underlyingError` links inside an
error value (array nesting adds no depth, matching the formatter, which
recurses into arrays at the same depth but into underlying errors one
level deeper). -/
def ErrVal.chainDepth : ErrVal → Nat
  | .obj _ u _ =>
      match u with
      | none => 0
      | some v => v.chainDepth + 1
  | .arr es => chainDepthList es

/-- The maximum chain depth over a list of error values. -/
def chainDepthList : List ErrVal → Nat
  | [] => 0
  | e :: es => max e.chainDepth (chainDepthList es)

end


/-!
Basic lemmas about the formatter.
-/


theorem formatV_arr (es : List ErrVal) (d : Nat) :
    formatV (.arr es) d = if d > 10 then .error rangeErr
      else (formatL es d).map (fun rs => .many (rs.filter (fun r => !r.isMany))) := by
  rw [formatV.eq_def]

theorem formatV_obj_none (f : ErrFields) (c : Option ErrVal) (d : Nat) :
    formatV (.obj f none c) d =
      if d > 10 then .error rangeErr else .ok (mkErrorObject f none) := by
  rw [formatV.eq_def]
  by_cases hd : d > 10
  · simp [hd]
  · simp only [hd, if_false]
    rfl

theorem formatV_obj_some (f : ErrFields) (w : ErrVal) (c : Option ErrVal) (d : Nat) :
    formatV (.obj f (some w) c) d =
      if d > 10 then .error rangeErr
      else (formatV w (d + 1)).bind (fun r => .ok (mkErrorObject f (some r))) := by
  rw [formatV.eq_def]
  by_cases hd : d > 10
  · simp [hd]
  · simp only [hd, if_false]
    cases formatV w (d + 1) <;> rfl

theorem formatL_nil (d : Nat) : formatL [] d = .ok [] := rfl

theorem formatL_cons (e : ErrVal) (es : List ErrVal) (d : Nat) :
    formatL (e :: es) d =
      (formatV e d).bind (fun r => (formatL es d).bind (fun rs => .ok (r :: rs))) := rfl

mutual

theorem formatV_error_eq : ∀ (v : ErrVal) (d : Nat) (e : Err),
    formatV v d = .error e → e = rangeErr
  | .arr es, d, e, h => by
      rw [formatV_arr] at h
      by_cases hd : d > 10
      · rw [if_pos hd] at h
        exact (Except.error.inj h).symm
      · rw [if_neg hd] at h
        cases hl : formatL es d with
        | ok rs => rw [hl] at h; exact absurd h (by simp [Except.map])
        | error e' =>
            rw [hl] at h
            simp only [Except.map] at h
            exact (Except.error.inj h) ▸ formatL_error_eq es d e' hl
  | .obj f none c, d, e, h => by
      rw [formatV_obj_none] at h
      by_cases hd : d > 10
      · rw [if_pos hd] at h
        exact (Except.error.inj h).symm
      · rw [if_neg hd] at h
        exact absurd h (by simp)
  | .obj f (some w) c, d, e, h => by
      rw [formatV_obj_some] at h
      by_cases hd : d > 10
      · rw [if_pos hd] at h
        exact (Except.error.inj h).symm
      · rw [if_neg hd] at h
        cases hw : formatV w (d + 1) with
        | ok r => rw [hw] at h; exact absurd h (by simp [Except.bind])
        | error e' =>
            rw [hw] at h
            simp only [Except.bind] at h
            exact (Except.error.inj h) ▸ formatV_error_eq w (d + 1) e' hw

theorem formatL_error_eq : ∀ (es : List ErrVal) (d : Nat) (e : Err),
    formatL es d = .error e → e = rangeErr
  | [], d, e, h => by exact absurd h (by simp [formatL_nil])
  | x :: es, d, e, h => by
      rw [formatL_cons] at h
      cases hv : formatV x d with
      | ok r =>
          rw [hv] at h
          simp only [Except.bind] at h
          cases hl : formatL es d with
          | ok rs => rw [hl] at h; exact absurd h (by simp)
          | error e' =>
              rw [hl] at h
              exact (Except.error.inj h) ▸ formatL_error_eq es d e' hl
      | error e' =>
          rw [hv] at h
          simp only [Except.bind] at h
          exact (Except.error.inj h) ▸ formatV_error_eq x d e' hv

end



theorem chainDepth_obj_none (f : ErrFields) (c : Option ErrVal) :
    ErrVal.chainDepth (.obj f none c) = 0 := rfl

theorem chainDepth_obj_some (f : ErrFields) (w : ErrVal) (c : Option ErrVal) :
    ErrVal.chainDepth (.obj f (some w) c) = w.chainDepth + 1 := rfl

theorem chainDepth_arr (es : List ErrVal) :
    ErrVal.chainDepth (.arr es) = chainDepthList es := rfl

theorem formatV_deep (v : ErrVal) (d : Nat) (hd : d > 10) : formatV v d = .error rangeErr := by
  rw [formatV.eq_def]
  simp [hd]

mutual

theorem formatV_overflow : ∀ (v : ErrVal) (d : Nat), 11 ≤ d + v.chainDepth →
    formatV v d = .error rangeErr
  | v, d, h => by
    by_cases hd : d > 10
    · exact formatV_deep v d hd
    · match v with
      | .arr es =>
          rw [formatV_arr, if_neg hd,
            formatL_overflow es d (by omega) (by rw [chainDepth_arr] at h; exact h)]
          rfl
      | .obj f none c =>
          rw [chainDepth_obj_none] at h
          omega
      | .obj f (some w) c =>
          rw [chainDepth_obj_some] at h
          rw [formatV_obj_some, if_neg hd, formatV_overflow w (d + 1) (by omega)]
          rfl

theorem formatL_overflow : ∀ (es : List ErrVal) (d : Nat), d ≤ 10 → 11 ≤ d + chainDepthList es →
    formatL es d = .error rangeErr
  | [], d, hd, h => by simp [chainDepthList] at h; omega
  | x :: es, d, hd, h => by
    rw [formatL_cons]
    by_cases hx : 11 ≤ d + x.chainDepth
    · rw [formatV_overflow x d hx]
      rfl
    · have hes : 11 ≤ d + chainDepthList es := by
        have : chainDepthList (x :: es) = max x.chainDepth (chainDepthList es) := rfl
        rw [this] at h
        omega
      cases hv : formatV x d with
      | ok r =>
          rw [formatL_overflow es d hd hes]
          rfl
      | error e' =>
          rw [formatV_error_eq x d e' hv]
          rfl

end

theorem formatV_ok_shape (f : ErrFields) (u : Option ErrVal) (c : Option ErrVal) (d : Nat)
    (r : FmtRes) (h : formatV (.obj f u c) d = .ok r) : ∃ errs, r = mkErrorObject f errs := by
  by_cases hd : d > 10
  · rw [formatV_deep _ _ hd] at h
    exact absurd h (by simp)
  · cases u with
    | none =>
        rw [formatV_obj_none, if_neg hd] at h
        exact ⟨none, (Except.ok.inj h).symm⟩
    | some w =>
        rw [formatV_obj_some, if_neg hd] at h
        cases hw : formatV w (d + 1) with
        | ok r' =>
            rw [hw] at h
            exact ⟨some r', (Except.ok.inj h).symm⟩
        | error e' => rw [hw] at h; exact absurd h (by simp [Except.bind])

theorem mkErrorObject_rootMessage (f : ErrFields) (errs : Option FmtRes) :
    (mkErrorObject f errs).rootMessage = some f.message := rfl

theorem mkErrorObject_metaOf (f : ErrFields) (errs : Option FmtRes) :
    (mkErrorObject f errs).metaOf =
      if f.property.isSome || f.value.isSome then some (propValMeta f.property f.value)
      else f.meta := by
  rw [mkErrorObject, FmtRes.metaOf]

theorem setStack_rootMessage (r : FmtRes) (s : Option String) :
    (r.setStack s).rootMessage = r.rootMessage := by
  cases r <;> rfl


/-!
Lemmas about resolution and the handler's branches.
-/


theorem runChain_nil (err : Err) (req : Req) (a : Option Err) :
    runChain [] err req a = (a, false) := rfl

theorem runChain_cons (p : Plugin) (ps : List Plugin) (err : Err) (req : Req) (a : Option Err) :
    runChain (p :: ps) err req a =
      if isMatch (p err req) then (p err req, true) else runChain ps err req (p err req) := by
  rw [runChain]

theorem runChain_matched_some : ∀ (ps : List Plugin) (err : Err) (req : Req) (a : Option Err),
    (runChain ps err req a).2 = true →
    ∃ v, (runChain ps err req a).1 = some v ∧ v.fields.isHTTP = true
  | [], err, req, a, h => by rw [runChain_nil] at h; exact absurd h (by simp)
  | p :: ps, err, req, a, h => by
      rw [runChain_cons] at h ⊢
      by_cases hm : isMatch (p err req)
      · rw [if_pos hm] at h ⊢
        cases he : p err req with
        | none => rw [he] at hm; exact absurd hm (by simp [isMatch])
        | some v =>
            rw [he] at hm
            rw [isMatch] at hm
            exact ⟨v, by simp [he], hm⟩
      · rw [if_neg hm] at h ⊢
        exact runChain_matched_some ps err req (p err req) h

theorem runChain_default_head (rest : List Plugin) (err : Err) (req : Req) (a : Option Err)
    (h : err.fields.isHTTP = true) :
    runChain (defaultPlugin :: rest) err req a = (some err, true) := by
  rw [runChain_cons, defaultPlugin]
  simp [isMatch, h]

theorem handleError_defer (opts : Opts) (chain : List Plugin) (err : Err) (req : Req) (res : Res)
    (hm : (runChain chain err req none).2 = false) (h5 : opts.default500 = false) :
    handleError opts chain err req res = .ok ⟨[], .next err⟩ := by
  rw [handleError]
  simp [hm, h5]

theorem handleError_match (opts : Opts) (chain : List Plugin) (err : Err) (req : Req) (res : Res)
    (error : Err) (hm : runChain chain err req none = (some error, true)) :
    handleError opts chain err req res = dispatch opts err req res error := by
  rw [handleError]
  simp [hm]

theorem handleError_d500 (opts : Opts) (chain : List Plugin) (err : Err) (req : Req) (res : Res)
    (hm : (runChain chain err req none).2 = false) (h5 : opts.default500 = true) :
    handleError opts chain err req res = dispatch opts err req res (default500Fallback err) := by
  rw [handleError]
  simp [hm, h5]

theorem dispatch_empty (opts : Opts) (err : Err) (req : Req) (res : Res) (error : Err)
    (he : isEmptyStatus error.fields.status = true) :
    dispatch opts err req res error = .ok ⟨[], .emptyResp error.fields.status⟩ := by
  rw [dispatch]
  simp [he]

theorem dispatch_redirect (opts : Opts) (err : Err) (req : Req) (res : Res) (error : Err) (u : String)
    (he : isEmptyStatus error.fields.status = false)
    (hr : isRedirectStatus error.fields.status = true)
    (hu : error.fields.redirectURL = some u) :
    dispatch opts err req res error = .ok ⟨[], .redirectResp error.fields.status u⟩ := by
  rw [dispatch]
  simp [he, hr, hu]

theorem dispatch_json_ok (opts : Opts) (err : Err) (req : Req) (res : Res) (error : Err)
    (eo : FmtRes)
    (he : isEmptyStatus error.fields.status = false)
    (hr : isRedirectStatus error.fields.status = false)
    (hf : opts.formatter error.toVal 0 = .ok eo) :
    dispatch opts err req res error = .ok (mkJson opts err req res error eo) := by
  rw [dispatch]
  simp [he, hr, hf]

theorem dispatch_json_recover (opts : Opts) (err : Err) (req : Req) (res : Res) (error : Err)
    (ex : Err)
    (he : isEmptyStatus error.fields.status = false)
    (hr : isRedirectStatus error.fields.status = false)
    (hf : opts.formatter error.toVal 0 = .error ex) :
    dispatch opts err req res error =
      match opts.formatter (parseFailFallback ex).toVal 0 with
      | .ok eo => .ok (mkJson opts err req res (parseFailFallback ex) eo)
      | .error ex2 => .error ex2 := by
  rw [dispatch]
  simp [he, hr, hf]



theorem runChain_stop_at_match : ∀ (ps₁ : List Plugin) (p : Plugin) (ps₂ ps₂' : List Plugin)
    (err : Err) (req : Req) (a : Option Err), isMatch (p err req) = true →
    runChain (ps₁ ++ p :: ps₂) err req a = runChain (ps₁ ++ p :: ps₂') err req a
  | [], p, ps₂, ps₂', err, req, a, h => by
      simp only [List.nil_append]
      rw [runChain_cons, runChain_cons, if_pos h, if_pos h]
  | q :: ps₁, p, ps₂, ps₂', err, req, a, h => by
      simp only [List.cons_append]
      rw [runChain_cons, runChain_cons]
      by_cases hq : isMatch (q err req)
      · rw [if_pos hq, if_pos hq]
      · rw [if_neg hq, if_neg hq]
        exact runChain_stop_at_match ps₁ p ps₂ ps₂' err req (q err req) h

/-- Two plugin chains whose members agree on the canonical content of
their returns resolve identically: same match flag, and the same
resolved value on a match. -/
theorem runChain_congr (ps qs : List Plugin) (err : Err) (req : Req)
    (hrel : List.Forall₂ (fun (p q : Plugin) => ∀ e r, canonicalOf (p e r) = canonicalOf (q e r)) ps qs) :
    ∀ (a b : Option Err),
    (runChain ps err req a).2 = (runChain qs err req b).2 ∧
    ((runChain ps err req a).2 = true → (runChain ps err req a).1 = (runChain qs err req b).1) := by
  induction hrel with
  | nil =>
      intro a b
      rw [runChain_nil, runChain_nil]
      exact ⟨rfl, by simp⟩
  | cons hpq _ ih =>
      intro a b
      rename_i p q ps qs _
      rw [runChain_cons, runChain_cons]
      have hco := hpq err req
      by_cases hm : isMatch (p err req)
      · have hmq : isMatch (q err req) = true := by
          rw [canonicalOf, canonicalOf, if_pos hm] at hco
          by_contra hnq
          rw [if_neg (by simpa using hnq)] at hco
          cases hpe : p err req with
          | none => rw [hpe] at hm; exact absurd hm (by simp [isMatch])
          | some v => rw [hpe] at hco; exact absurd hco (by simp)
        rw [if_pos hm, if_pos hmq]
        constructor
        · rfl
        · intro _
          rw [canonicalOf, canonicalOf, if_pos hm, if_pos hmq] at hco
          exact hco
      · have hmq : isMatch (q err req) = false := by
          rw [canonicalOf, canonicalOf, if_neg hm] at hco
          by_contra hq
          rw [if_pos (by simpa using hq)] at hco
          cases hqe : q err req with
          | none => rw [hqe] at hq; exact absurd (by simpa using hq) (by simp [isMatch])
          | some v => rw [hqe] at hco; exact absurd hco (by simp)
        rw [if_neg hm, if_neg (by simp [hmq])]
        exact ih (p err req) (q err req)



theorem dispatch_redirect_none (opts : Opts) (err : Err) (req : Req) (res : Res) (error : Err)
    (he : isEmptyStatus error.fields.status = false)
    (hr : isRedirectStatus error.fields.status = true)
    (hu : error.fields.redirectURL = none) :
    dispatch opts err req res error = .error undefReadErr := by
  rw [dispatch]
  simp [he, hr, hu]

theorem dispatch_cases (opts : Opts) (err : Err) (req : Req) (res : Res) (error : Err) :
    (dispatch opts err req res error = .ok ⟨[], .emptyResp error.fields.status⟩) ∨
    (∃ u, dispatch opts err req res error = .ok ⟨[], .redirectResp error.fields.status u⟩) ∨
    (∃ ex, dispatch opts err req res error = .error ex) ∨
    (∃ fin eo, dispatch opts err req res error = .ok (mkJson opts err req res fin eo)) := by
  by_cases he : isEmptyStatus error.fields.status
  · exact Or.inl (dispatch_empty _ _ _ _ _ he)
  · have he' : isEmptyStatus error.fields.status = false := by simpa using he
    by_cases hr : isRedirectStatus error.fields.status
    · cases hu : error.fields.redirectURL with
      | some u => exact Or.inr (Or.inl ⟨u, dispatch_redirect _ _ _ _ _ u he' hr hu⟩)
      | none => exact Or.inr (Or.inr (Or.inl ⟨undefReadErr, dispatch_redirect_none _ _ _ _ _ he' hr hu⟩))
    · have hr' : isRedirectStatus error.fields.status = false := by simpa using hr
      cases hf : opts.formatter error.toVal 0 with
      | ok eo => exact Or.inr (Or.inr (Or.inr ⟨error, eo, dispatch_json_ok _ _ _ _ _ _ he' hr' hf⟩))
      | error ex =>
          have hrec := dispatch_json_recover opts err req res error ex he' hr' hf
          cases hf2 : opts.formatter (parseFailFallback ex).toVal 0 with
          | ok eo2 =>
              refine Or.inr (Or.inr (Or.inr ⟨parseFailFallback ex, eo2, ?_⟩))
              rw [hrec, hf2]
          | error ex2 =>
              refine Or.inr (Or.inr (Or.inl ⟨ex2, ?_⟩))
              rw [hrec, hf2]

theorem dispatch_not_next (opts : Opts) (err : Err) (req : Req) (res : Res) (error : Err)
    (calls : List IntegCall) (e : Err) :
    dispatch opts err req res error ≠ .ok ⟨calls, .next e⟩ := by
  intro h
  rcases dispatch_cases opts err req res error with h1 | ⟨u, h1⟩ | ⟨ex, h1⟩ | ⟨fin, eo, h1⟩ <;>
    rw [h1] at h
  · simp at h
  · simp at h
  · simp at h
  · simp [mkJson] at h



/-!
Concrete inputs used by witnesses and counterexamples.
-/

/-- A concrete request. -/
def req0 : Req := ⟨0⟩

/-- A concrete response object. -/
def res0 : Res := ⟨200⟩

/-- A canonical 422 error with no optional fields. -/
def cErr422 : Err :=
  { fields := { message := "bad", name := "UnprocessableEntity", status := 422, isHTTP := true } }

/-- A canonical 204 (empty-class) error. -/
def cErr204 : Err :=
  { fields := { message := "done", name := "NoContent", status := 204, isHTTP := true } }

/-- A canonical 301 (redirect-class) error with a redirect URL. -/
def cErr301 : Err :=
  { fields := { message := "moved", name := "MovedPermanently", status := 301, isHTTP := true,
                redirectURL := some "http://example.test/next" } }

/-- A plain non-canonical raw error. -/
def plainBoom : Err := { fields := { message := "boom" } }

/-- Default-shaped options: built-in formatter, no stack, no
default500, no integrations. -/
def defOpts : Opts := { stack := false, default500 := false, formatter := formatV }

/-- Options with one integration configured. -/
def integOpts : Opts :=
  { stack := false, default500 := false, formatter := formatV, integrations := [⟨7⟩] }

/-- An error value whose `underlyingError` chain is `n` links deep. -/
def deepV : Nat → ErrVal
  | 0 => .obj { message := "leaf" } none none
  | n + 1 => .obj { message := "node" } (some (deepV n)) none

/-!
The claims.
-/

/-- C2: for every raw error and chain in which no classifier returns a
nominally canonical HTTP error, when `default500` is false the handler
invokes the deferral continuation `next` with the original raw error
unmodified, performs no integration calls and writes no response; and
among completed runs this is the only outcome that is a deferral: a
deferral outcome can only arise from an unmatched chain with
`default500` false, always carries the raw error, and never coexists
with integration calls. -/
theorem claim_C2 (opts : Opts) (chain : List Plugin) (err : Err) (req : Req) (res : Res) :
    (opts.default500 = false → (runChain chain err req none).2 = false →
      handleError opts chain err req res = .ok ⟨[], .next err⟩) ∧
    (∀ calls o, handleError opts chain err req res = .ok ⟨calls, o⟩ →
      ∀ e, o = Outcome.next e →
        e = err ∧ calls = [] ∧ opts.default500 = false ∧
        (runChain chain err req none).2 = false) := by
  constructor
  · intro h5 hm
    exact handleError_defer opts chain err req res hm h5
  · intro calls o h e ho
    subst ho
    by_cases hm : (runChain chain err req none).2 = true
    · obtain ⟨v, hv1, _⟩ := runChain_matched_some chain err req none hm
      have heq : runChain chain err req none = (some v, true) := by
        have h0 : runChain chain err req none =
            ((runChain chain err req none).1, (runChain chain err req none).2) := rfl
        rw [h0, hv1, hm]
      rw [handleError_match opts chain err req res v heq] at h
      exact absurd h (dispatch_not_next opts err req res v calls e)
    · have hm' : (runChain chain err req none).2 = false := by simpa using hm
      by_cases h5 : opts.default500 = true
      · rw [handleError_d500 opts chain err req res hm' h5] at h
        exact absurd h (dispatch_not_next opts err req res (default500Fallback err) calls e)
      · have h5' : opts.default500 = false := by simpa using h5
        rw [handleError_defer opts chain err req res hm' h5'] at h
        have h2 := Except.ok.inj h
        injection h2 with hc ho2
        injection ho2 with he
        exact ⟨he.symm, hc.symm, h5', hm'⟩

/-- C2 witness: a plain (non-canonical) raw error with the built-in
chain and `default500` off defers with the raw error and no calls. -/
theorem claim_C2_witness :
    handleError defOpts [defaultPlugin] plainBoom req0 res0 = .ok ⟨[], .next plainBoom⟩ :=
  (claim_C2 defOpts [defaultPlugin] plainBoom req0 res0).1 rfl rfl

/-- C4: the response shape of a resolved error is decided solely by its
status code: an empty-class status emits that status with an empty body
and no JSON and no integration calls; a redirect-class status emits
that status with the Location set to the error's `redirectURL` and no
JSON; any other status emits the JSON envelope of the formatted object
with the envelope's meta status and the transport status both set to
the resolved error's status (stated on the path where the configured
formatter returns normally; the formatting-failure path is the subject
of C1). -/
theorem claim_C4 (opts : Opts) (chain : List Plugin) (err : Err) (req : Req) (res : Res)
    (error : Err) (hm : runChain chain err req none = (some error, true)) :
    (isEmptyStatus error.fields.status = true →
      handleError opts chain err req res = .ok ⟨[], .emptyResp error.fields.status⟩) ∧
    (isEmptyStatus error.fields.status = false → isRedirectStatus error.fields.status = true →
      ∀ u, error.fields.redirectURL = some u →
        handleError opts chain err req res = .ok ⟨[], .redirectResp error.fields.status u⟩) ∧
    (isEmptyStatus error.fields.status = false → isRedirectStatus error.fields.status = false →
      ∀ eo, opts.formatter error.toVal 0 = .ok eo →
        handleError opts chain err req res =
          .ok ⟨opts.integrations.map (fun g => (g, error, req, snapshotRes res)),
               .jsonResp error.fields.status
                 (if opts.stack then eo.setStack err.fields.stack else eo)
                 error.fields.status⟩) := by
  rw [handleError_match opts chain err req res error hm]
  refine ⟨fun he => dispatch_empty _ _ _ _ _ he,
          fun he hr u hu => dispatch_redirect _ _ _ _ _ u he hr hu,
          fun he hr eo hf => ?_⟩
  rw [dispatch_json_ok _ _ _ _ _ eo he hr hf, mkJson]

/-- C4 witness: the three response shapes at concrete resolved errors:
a 204 empty body, a 301 redirect with its Location, and a 422 JSON
envelope carrying the formatted object, meta status and integration
call. -/
theorem claim_C4_witness :
    handleError integOpts [defaultPlugin] cErr204 req0 res0 = .ok ⟨[], .emptyResp 204⟩ ∧
    handleError integOpts [defaultPlugin] cErr301 req0 res0 =
      .ok ⟨[], .redirectResp 301 "http://example.test/next"⟩ ∧
    handleError integOpts [defaultPlugin] cErr422 req0 res0 =
      .ok ⟨[(⟨7⟩, cErr422, req0, snapshotRes res0)],
           .jsonResp 422 (.one "bad" "UnprocessableEntity" none none none none) 422⟩ :=
  ⟨(claim_C4 integOpts [defaultPlugin] cErr204 req0 res0 cErr204 rfl).1 rfl,
   (claim_C4 integOpts [defaultPlugin] cErr301 req0 res0 cErr301 rfl).2.1 rfl rfl
     "http://example.test/next" rfl,
   (claim_C4 integOpts [defaultPlugin] cErr422 req0 res0 cErr422 rfl).2.2 rfl rfl
     (.one "bad" "UnprocessableEntity" none none none none) rfl⟩



/-- A plugin that passes every error through unchanged. -/
def pPass : Plugin := fun e _ => some e

/-- C6: a raw error that is already nominally a canonical HTTP error
resolves through the built-in first classifier to that exact value
unchanged, with the match flag set; and once some classifier's return
passes the canonical match test, the plugins after it are irrelevant to
resolution (the loop exits at the first match, so any two
continuations of the chain resolve identically). -/
theorem claim_C6 :
    (∀ (rest : List Plugin) (err : Err) (req : Req), err.fields.isHTTP = true →
      runChain (defaultPlugin :: rest) err req none = (some err, true)) ∧
    (∀ (ps₁ : List Plugin) (p : Plugin) (ps₂ ps₂' : List Plugin) (err : Err) (req : Req)
      (a : Option Err), isMatch (p err req) = true →
      runChain (ps₁ ++ p :: ps₂) err req a = runChain (ps₁ ++ p :: ps₂') err req a) :=
  ⟨fun rest err req h => runChain_default_head rest err req none h,
   runChain_stop_at_match⟩

/-- C6 witness: a canonical 422 error passes through the built-in
classifier unchanged, and a chain is insensitive to what follows a
matching pass-through plugin. -/
theorem claim_C6_witness :
    runChain [defaultPlugin] cErr422 req0 none = (some cErr422, true) ∧
    runChain ([] ++ pPass :: [defaultPlugin]) cErr422 req0 none =
      runChain ([] ++ pPass :: []) cErr422 req0 none :=
  ⟨claim_C6.1 [] cErr422 req0 rfl,
   claim_C6.2 [] pPass [defaultPlugin] [] cErr422 req0 none rfl⟩

/-- C7: when the default formatter succeeds on a single (non-sequence)
error value that has a `property` field or a `value` field, the
output's `meta` equals the synthesized property/value object,
regardless of (and overwriting) the error's own `meta` field. -/
theorem claim_C7 (f : ErrFields) (u c : Option ErrVal) (d : Nat) (r : FmtRes)
    (hok : formatV (.obj f u c) d = .ok r)
    (hpv : (f.property.isSome || f.value.isSome) = true) :
    r.metaOf = some (propValMeta f.property f.value) := by
  obtain ⟨errs, rfl⟩ := formatV_ok_shape f u c d r hok
  rw [mkErrorObject_metaOf, if_pos hpv]

/-- C7 witness: an error carrying both a `meta` record and
property/value fields formats with `meta` equal to the synthesized
property/value object, the original `meta` discarded. -/
theorem claim_C7_witness :
    (FmtRes.one "m" "Error" none none
        (some [("property", .str "name"), ("value", .num 1337)]) none).metaOf =
      some (propValMeta (some (.str "name")) (some (.num 1337))) :=
  claim_C7 { message := "m", meta := some [("k", .num 1)],
             property := some (.str "name"), value := some (.num 1337) }
    none none 0
    (.one "m" "Error" none none (some [("property", .str "name"), ("value", .num 1337)]) none)
    rfl rfl

theorem formatL_eq_mapM (es : List ErrVal) (d : Nat) :
    formatL es d = es.mapM (fun e => formatV e d) := by
  induction es with
  | nil => rfl
  | cons e es ih =>
      rw [formatL_cons, List.mapM_cons, ih]
      rfl

/-- C9: formatting an ordered sequence at depth `d` (below the ceiling)
maps the formatter over each element at the same depth `d`, then drops
every element whose formatted result is itself a sequence, so one level
of list-of-list is suppressed rather than propagated. -/
theorem claim_C9 (es : List ErrVal) (d : Nat) :
    formatV (.arr es) d =
      if d > 10 then .error rangeErr
      else (es.mapM (fun e => formatV e d)).map
        (fun rs => .many (rs.filter (fun r => !r.isMany))) := by
  rw [formatV_arr, formatL_eq_mapM]



/-- The formatted object the default formatter produces for the
parse-failure fallback built on the depth-ceiling RangeError. -/
def depthFailObject : FmtRes :=
  .one "Failed to parse an error object" "InternalServerError" none
    (some (.many [.one "Unable to process a depth greater than 10" "RangeError"
      none none none none])) none none

/-- C5: the default formatter fails with the depth-exceeded RangeError
whenever invoked at depth greater than 10, on any input; consequently,
for any canonical error whose underlying-error chain is nested 11 (or
more) levels deep and whose status takes the JSON path, the handler
with the default formatter emits the recovered 500 JSON response whose
top-level error message is the parse-failure message, instead of
propagating the overflow to the caller. -/
theorem claim_C5 :
    (∀ (v : ErrVal) (d : Nat), d > 10 → formatV v d = .error rangeErr) ∧
    (∀ (opts : Opts) (err : Err) (req : Req) (res : Res),
      opts.formatter = formatV →
      err.fields.isHTTP = true →
      11 ≤ err.toVal.chainDepth →
      isEmptyStatus err.fields.status = false →
      isRedirectStatus err.fields.status = false →
      ∃ body, handleError opts [defaultPlugin] err req res =
        .ok ⟨opts.integrations.map (fun g => (g, parseFailFallback rangeErr, req, snapshotRes res)),
             .jsonResp 500 body 500⟩ ∧
        body.rootMessage = some "Failed to parse an error object") := by
  refine ⟨formatV_deep, ?_⟩
  intro opts err req res hfmt hH h11 he hr
  have hm := runChain_default_head [] err req none hH
  rw [handleError_match opts [defaultPlugin] err req res err hm]
  have hf : opts.formatter err.toVal 0 = .error rangeErr := by
    rw [hfmt]
    exact formatV_overflow err.toVal 0 (by omega)
  rw [dispatch_json_recover opts err req res err rangeErr he hr hf]
  have hfb : opts.formatter (parseFailFallback rangeErr).toVal 0 = .ok depthFailObject := by
    rw [hfmt]
    rfl
  rw [hfb]
  refine ⟨if opts.stack then depthFailObject.setStack err.fields.stack else depthFailObject,
    rfl, ?_⟩
  cases hs : opts.stack <;>
    simp [hs, depthFailObject, FmtRes.setStack, FmtRes.rootMessage]

/-- Options with the default formatter and one integration, used for
the deep-chain scenario. -/
def deepOpts : Opts :=
  { stack := false, default500 := false, formatter := formatV, integrations := [⟨3⟩] }

/-- A canonical 422 error whose underlying chain is 11 levels deep. -/
def cDeepErr : Err :=
  { fields := { message := "deep", name := "UnprocessableEntity", status := 422, isHTTP := true },
    underlying := some (deepV 10) }

/-- C5 witness: the handler on a concrete 422 error with an 11-deep
underlying chain emits the recovered parse-failure 500 JSON response. -/
theorem claim_C5_witness :
    ∃ body, handleError deepOpts [defaultPlugin] cDeepErr req0 res0 =
      .ok ⟨[(⟨3⟩, parseFailFallback rangeErr, req0, snapshotRes res0)],
           .jsonResp 500 body 500⟩ ∧
      body.rootMessage = some "Failed to parse an error object" :=
  claim_C5.2 deepOpts cDeepErr req0 res0 rfl rfl (by decide) rfl rfl



/-- C10: a classifier return that is not nominally canonical behaves
exactly as if the classifier had returned nothing: two runs whose
chains agree pointwise on the canonical content of every classifier
return produce identical results; and on the unmatched, `default500`
path the handler dispatches the fallback built from the original raw
error (wrapping it as underlying error and cause), never from any
non-canonical classifier return. -/
theorem claim_C10 (opts : Opts) (ps qs : List Plugin) (err : Err) (req : Req) (res : Res)
    (hrel : List.Forall₂
      (fun (p q : Plugin) => ∀ e r, canonicalOf (p e r) = canonicalOf (q e r)) ps qs) :
    handleError opts ps err req res = handleError opts qs err req res ∧
    (opts.default500 = true → (runChain ps err req none).2 = false →
      handleError opts ps err req res = dispatch opts err req res (default500Fallback err) ∧
      (default500Fallback err).underlying = some (.arr [err.toVal]) ∧
      (default500Fallback err).cause = some err.toVal) := by
  obtain ⟨h2, h1⟩ := runChain_congr ps qs err req hrel none none
  constructor
  · by_cases hm : (runChain ps err req none).2 = true
    · obtain ⟨v, hv1, _⟩ := runChain_matched_some ps err req none hm
      have hq2 : (runChain qs err req none).2 = true := h2 ▸ hm
      have hv1q : (runChain qs err req none).1 = some v := (h1 hm) ▸ hv1
      have heqp : runChain ps err req none = (some v, true) := by
        have h0 : runChain ps err req none =
            ((runChain ps err req none).1, (runChain ps err req none).2) := rfl
        rw [h0, hv1, hm]
      have heqq : runChain qs err req none = (some v, true) := by
        have h0 : runChain qs err req none =
            ((runChain qs err req none).1, (runChain qs err req none).2) := rfl
        rw [h0, hv1q, hq2]
      rw [handleError_match opts ps err req res v heqp,
          handleError_match opts qs err req res v heqq]
    · have hmp : (runChain ps err req none).2 = false := by simpa using hm
      have hmq : (runChain qs err req none).2 = false := h2 ▸ hmp
      by_cases h5 : opts.default500 = true
      · rw [handleError_d500 opts ps err req res hmp h5,
            handleError_d500 opts qs err req res hmq h5]
      · have h5' : opts.default500 = false := by simpa using h5
        rw [handleError_defer opts ps err req res hmp h5',
            handleError_defer opts qs err req res hmq h5']
  · intro h5 hmp
    exact ⟨handleError_d500 opts ps err req res hmp h5, rfl, rfl⟩

/-- A junk classifier returning a non-canonical object for every input. -/
def pJunk : Plugin := fun _ _ => some plainBoom

/-- A classifier with no opinion on any input. -/
def pNone : Plugin := fun _ _ => none

/-- Options with `default500` on and the default formatter. -/
def d500Opts : Opts := { stack := false, default500 := true, formatter := formatV }

/-- C10 witness: replacing a junk (non-canonical) classifier return by
no return leaves the handler's result unchanged, and the `default500`
fallback dispatched for the unmatched raw error wraps that raw error. -/
theorem claim_C10_witness :
    (handleError d500Opts [defaultPlugin, pJunk] plainBoom req0 res0 =
      handleError d500Opts [defaultPlugin, pNone] plainBoom req0 res0) ∧
    (handleError d500Opts [defaultPlugin, pJunk] plainBoom req0 res0 =
      dispatch d500Opts plainBoom req0 res0 (default500Fallback plainBoom) ∧
     (default500Fallback plainBoom).underlying = some (.arr [plainBoom.toVal]) ∧
     (default500Fallback plainBoom).cause = some plainBoom.toVal) := by
  have hrel : List.Forall₂
      (fun (p q : Plugin) => ∀ e r, canonicalOf (p e r) = canonicalOf (q e r))
      [defaultPlugin, pJunk] [defaultPlugin, pNone] := by
    refine List.Forall₂.cons (fun e r => rfl) (List.Forall₂.cons (fun e r => ?_) List.Forall₂.nil)
    rfl
  have h := claim_C10 d500Opts [defaultPlugin, pJunk] [defaultPlugin, pNone]
    plainBoom req0 res0 hrel
  exact ⟨h.1, h.2 rfl rfl⟩



/-- A custom formatter that throws on every input. -/
def boomErr : Err := { fields := { message := "formatter blew up" } }

/-- The always-throwing custom formatter. -/
def boomFmt : ErrVal → Nat → Except Err FmtRes := fun _ _ => .error boomErr

/-- Options configured with the always-throwing custom formatter. -/
def boomOpts : Opts := { stack := false, default500 := false, formatter := boomFmt }

/-- C1 counterexample: with an always-throwing custom formatter
configured, the handler run on a resolved 422 error ends in an uncaught
throw of the formatter's failure: the recovery step re-invoked the
custom formatter, not the default one, and itself threw. The second
conjunct shows the default formatter succeeds on the synthesized
fallback, so had the recovery used the default formatter as the claim
states, a response would have been produced without throwing. -/
theorem claim_C1_counterexample :
    handleError boomOpts [defaultPlugin] cErr422 req0 res0 = .error boomErr ∧
    formatV (parseFailFallback boomErr).toVal 0 =
      .ok (.one "Failed to parse an error object" "InternalServerError" none
        (some (.many [.one "formatter blew up" "Error" none none none none])) none none) :=
  ⟨rfl, rfl⟩

/-- C1 (amended): if the configured formatter throws on the resolved
error at depth 0 (on the JSON path), the handler discards the resolved
error and synthesizes an Internal Server Error fallback with message
"Failed to parse an error object" wrapping the thrown failure as its
underlying error and cause; but it re-invokes the *configured*
formatter (not necessarily the default one) on this fallback, and if
that second invocation also throws, the exception propagates uncaught
instead of producing a response. -/
theorem claim_C1 (opts : Opts) (chain : List Plugin) (err : Err) (req : Req) (res : Res)
    (error : Err) (ex : Err)
    (hm : runChain chain err req none = (some error, true))
    (he : isEmptyStatus error.fields.status = false)
    (hr : isRedirectStatus error.fields.status = false)
    (hf : opts.formatter error.toVal 0 = .error ex) :
    (parseFailFallback ex).fields.message = "Failed to parse an error object" ∧
    (parseFailFallback ex).fields.status = 500 ∧
    (parseFailFallback ex).underlying = some (.arr [ex.toVal]) ∧
    (parseFailFallback ex).cause = some ex.toVal ∧
    (∀ eo, opts.formatter (parseFailFallback ex).toVal 0 = .ok eo →
      handleError opts chain err req res =
        .ok (mkJson opts err req res (parseFailFallback ex) eo)) ∧
    (∀ ex2, opts.formatter (parseFailFallback ex).toVal 0 = .error ex2 →
      handleError opts chain err req res = .error ex2) := by
  rw [handleError_match opts chain err req res error hm,
      dispatch_json_recover opts err req res error ex he hr hf]
  refine ⟨rfl, rfl, rfl, rfl, fun eo h2 => ?_, fun ex2 h2 => ?_⟩ <;> rw [h2]

/-- A custom formatter that throws on taxonomy errors named
UnprocessableEntity and returns a recognizable custom object on
anything else (in particular on the synthesized fallback). -/
def selFmt : ErrVal → Nat → Except Err FmtRes := fun v _ =>
  match v with
  | .obj f _ _ =>
      if f.name = "UnprocessableEntity" then .error boomErr
      else .ok (.one "CUSTOM" f.name none none none none)
  | .arr _ => .error boomErr

/-- Options configured with the selectively-throwing custom formatter. -/
def selOpts : Opts := { stack := false, default500 := false, formatter := selFmt }

/-- C1 witness: with the selective custom formatter, the first
formatting of the resolved 422 error throws, and the recovery
re-invokes that same custom formatter on the fallback, emitting the
custom formatter's object (not the default formatter's) in a 500 JSON
response. -/
theorem claim_C1_witness :
    (parseFailFallback boomErr).fields.message = "Failed to parse an error object" ∧
    (parseFailFallback boomErr).fields.status = 500 ∧
    (parseFailFallback boomErr).underlying = some (.arr [boomErr.toVal]) ∧
    (parseFailFallback boomErr).cause = some boomErr.toVal ∧
    handleError selOpts [defaultPlugin] cErr422 req0 res0 =
      .ok ⟨[], .jsonResp 500 (.one "CUSTOM" "InternalServerError" none none none none) 500⟩ := by
  have h := claim_C1 selOpts [defaultPlugin] cErr422 req0 res0 cErr422 boomErr
    rfl rfl rfl rfl
  exact ⟨h.1, h.2.1, h.2.2.1, h.2.2.2.1,
    h.2.2.2.2.1 (.one "CUSTOM" "InternalServerError" none none none none) rfl⟩



/-- A plain raw error whose own underlying chain is 10 levels deep, so
the synthesized `default500` fallback around it is 11 deep. -/
def cDeepRaw : Err := { fields := { message := "boom" }, underlying := some (deepV 9) }

/-- C3 counterexample: with `default500` on and the default formatter,
a raw error with a deep underlying chain makes formatting of the
synthesized fallback overflow, and the handler emits the recovered 500
response whose top-level message is the parse-failure message, not the
raw error's message. -/
theorem claim_C3_counterexample :
    handleError d500Opts [defaultPlugin] cDeepRaw req0 res0 =
      .ok ⟨[], .jsonResp 500 depthFailObject 500⟩ ∧
    depthFailObject.rootMessage ≠ some cDeepRaw.fields.message := by
  refine ⟨rfl, ?_⟩
  simp [depthFailObject, cDeepRaw, FmtRes.rootMessage]

/-- C3 (amended): for every raw error and chain where no classifier
matches, when `default500` is true the handler synthesizes an Internal
Server Error whose message is the raw error's message and which carries
the raw error both as its nested underlying error and as its causal
reference; when the default formatter is configured and it succeeds on
this synthesized error at depth 0 (i.e. the raw error's underlying
chain stays within the depth ceiling), the handler emits a JSON
response with status 500 whose top-level error message equals the
original raw error's message — otherwise the formatting-failure
recovery of C1 replaces the message. -/
theorem claim_C3 (opts : Opts) (chain : List Plugin) (err : Err) (req : Req) (res : Res)
    (h5 : opts.default500 = true)
    (hm : (runChain chain err req none).2 = false)
    (hfmt : opts.formatter = formatV) :
    (default500Fallback err).fields.message = err.fields.message ∧
    (default500Fallback err).fields.status = 500 ∧
    (default500Fallback err).underlying = some (.arr [err.toVal]) ∧
    (default500Fallback err).cause = some err.toVal ∧
    (∀ eo, formatV (default500Fallback err).toVal 0 = .ok eo →
      handleError opts chain err req res =
        .ok ⟨opts.integrations.map (fun g => (g, default500Fallback err, req, snapshotRes res)),
             .jsonResp 500 (if opts.stack then eo.setStack err.fields.stack else eo) 500⟩ ∧
      eo.rootMessage = some err.fields.message ∧
      (eo.setStack err.fields.stack).rootMessage = some err.fields.message) := by
  refine ⟨rfl, rfl, rfl, rfl, fun eo hok => ?_⟩
  have hshape := formatV_ok_shape (default500Fallback err).fields
    (default500Fallback err).underlying (default500Fallback err).cause 0 eo hok
  obtain ⟨errs, rfl⟩ := hshape
  have hroot : (mkErrorObject (default500Fallback err).fields errs).rootMessage =
      some err.fields.message := by
    rw [mkErrorObject_rootMessage]
    rfl

  refine ⟨?_, hroot, by rw [setStack_rootMessage]; exact hroot⟩
  rw [handleError_d500 opts chain err req res hm h5]
  have hf : opts.formatter (default500Fallback err).toVal 0 =
      .ok (mkErrorObject (default500Fallback err).fields errs) := by
    rw [hfmt]
    exact hok
  rw [dispatch_json_ok opts err req res (default500Fallback err) _ rfl rfl hf, mkJson]
  rfl

/-- Options with `default500` on, the default formatter and one
integration. -/
def d500IntegOpts : Opts :=
  { stack := false, default500 := true, formatter := formatV, integrations := [⟨9⟩] }

/-- C3 witness: a shallow plain raw error under `default500` produces
the 500 JSON response built from the synthesized fallback, whose
top-level message is the raw error's message, with the fallback handed
to the integration. -/
theorem claim_C3_witness :
    (default500Fallback plainBoom).fields.message = plainBoom.fields.message ∧
    (default500Fallback plainBoom).fields.status = 500 ∧
    (default500Fallback plainBoom).underlying = some (.arr [plainBoom.toVal]) ∧
    (default500Fallback plainBoom).cause = some plainBoom.toVal ∧
    (handleError d500IntegOpts [defaultPlugin] plainBoom req0 res0 =
      .ok ⟨[(⟨9⟩, default500Fallback plainBoom, req0, snapshotRes res0)],
           .jsonResp 500
             (.one "boom" "InternalServerError" none
               (some (.many [.one "boom" "Error" none none none none])) none none) 500⟩ ∧
     (FmtRes.one "boom" "InternalServerError" none
       (some (.many [.one "boom" "Error" none none none none])) none none).rootMessage =
       some plainBoom.fields.message ∧
     ((FmtRes.one "boom" "InternalServerError" none
       (some (.many [.one "boom" "Error" none none none none])) none none).setStack
         plainBoom.fields.stack).rootMessage = some plainBoom.fields.message) := by
  have h := claim_C3 d500IntegOpts [defaultPlugin] plainBoom req0 res0 rfl rfl rfl
  exact ⟨h.1, h.2.1, h.2.2.1, h.2.2.2.1,
    h.2.2.2.2 (.one "boom" "InternalServerError" none
      (some (.many [.one "boom" "Error" none none none none])) none none) rfl⟩



/-- C8 counterexample: an invocation with one configured integration
that resolves to an empty-class (204) error produces a response but
performs no integration calls, because the empty-body short-circuit
returns before the integration loop is reached. -/
theorem claim_C8_counterexample :
    handleError integOpts [defaultPlugin] cErr204 req0 res0 = .ok ⟨[], .emptyResp 204⟩ ∧
    integOpts.integrations.length = 1 :=
  ⟨rfl, rfl⟩

/-- On every completed dispatch, integration calls are exactly the
configured list applied in order to the final error, the request and
the response snapshot on the JSON outcome, and absent on the empty and
redirect outcomes. -/
theorem dispatch_calls_shape (opts : Opts) (err : Err) (req : Req) (res : Res) (error : Err)
    (calls : List IntegCall) (o : Outcome)
    (h : dispatch opts err req res error = .ok ⟨calls, o⟩) :
    (∀ s b ms, o = Outcome.jsonResp s b ms →
      ∃ fin, calls = opts.integrations.map (fun g => (g, fin, req, snapshotRes res)) ∧
        s = fin.fields.status ∧ ms = fin.fields.status) ∧
    (∀ s, o = Outcome.emptyResp s → calls = []) ∧
    (∀ s u, o = Outcome.redirectResp s u → calls = []) ∧
    (∀ e, o = Outcome.next e → calls = []) := by
  rcases dispatch_cases opts err req res error with h1 | ⟨u, h1⟩ | ⟨ex, h1⟩ | ⟨fin, eo, h1⟩ <;>
    rw [h1] at h
  · have h2 := Except.ok.inj h
    injection h2 with hc ho
    subst hc
    subst ho
    refine ⟨?_, ?_, ?_, ?_⟩
    · intro s b ms h'
      exact Outcome.noConfusion h'
    · intro s h'
      rfl
    · intro s u h'
      exact Outcome.noConfusion h'
    · intro e h'
      exact Outcome.noConfusion h'
  · have h2 := Except.ok.inj h
    injection h2 with hc ho
    subst hc
    subst ho
    refine ⟨?_, ?_, ?_, ?_⟩
    · intro s b ms h'
      exact Outcome.noConfusion h'
    · intro s h'
      exact Outcome.noConfusion h'
    · intro s u h'
      rfl
    · intro e h'
      exact Outcome.noConfusion h'
  · exact Except.noConfusion h
  · rw [mkJson] at h
    have h2 := Except.ok.inj h
    injection h2 with hc ho
    subst hc
    subst ho
    refine ⟨?_, ?_, ?_, ?_⟩
    · intro s b ms h'
      injection h' with hs hb hms
      exact ⟨fin, rfl, hs.symm, hms.symm⟩
    · intro s h'
      exact Outcome.noConfusion h'
    · intro s u h'
      exact Outcome.noConfusion h'
    · intro e h'
      exact Outcome.noConfusion h'

/-- C8 (amended): on every completed handler run, the integration
callbacks are invoked exactly on the JSON outcome: there the recorded
calls are the configured integrations in configuration order, each
receiving the final resolved (possibly fallback) error — whose status
is the one emitted — together with the request and the non-mutating
data-only snapshot of the response, all performed after the body is
decided and before emission; runs ending in empty, redirect or deferral
outcomes perform no integration calls even though the first two produce
responses. -/
theorem claim_C8 (opts : Opts) (chain : List Plugin) (err : Err) (req : Req) (res : Res)
    (calls : List IntegCall) (o : Outcome)
    (h : handleError opts chain err req res = .ok ⟨calls, o⟩) :
    (∀ s b ms, o = Outcome.jsonResp s b ms →
      ∃ fin, calls = opts.integrations.map (fun g => (g, fin, req, snapshotRes res)) ∧
        s = fin.fields.status ∧ ms = fin.fields.status) ∧
    (∀ s, o = Outcome.emptyResp s → calls = []) ∧
    (∀ s u, o = Outcome.redirectResp s u → calls = []) ∧
    (∀ e, o = Outcome.next e → calls = []) := by
  by_cases hm : (runChain chain err req none).2 = true
  · obtain ⟨v, hv1, _⟩ := runChain_matched_some chain err req none hm
    have heq : runChain chain err req none = (some v, true) := by
      have h0 : runChain chain err req none =
          ((runChain chain err req none).1, (runChain chain err req none).2) := rfl
      rw [h0, hv1, hm]
    rw [handleError_match opts chain err req res v heq] at h
    exact dispatch_calls_shape opts err req res v calls o h
  · have hm' : (runChain chain err req none).2 = false := by simpa using hm
    by_cases h5 : opts.default500 = true
    · rw [handleError_d500 opts chain err req res hm' h5] at h
      exact dispatch_calls_shape opts err req res (default500Fallback err) calls o h
    · have h5' : opts.default500 = false := by simpa using h5
      rw [handleError_defer opts chain err req res hm' h5'] at h
      have h2 := Except.ok.inj h
      injection h2 with hc ho
      subst hc
      subst ho
      refine ⟨?_, ?_, ?_, ?_⟩
      · intro s b ms h'
        exact Outcome.noConfusion h'
      · intro s h'
        exact Outcome.noConfusion h'
      · intro s u h'
        exact Outcome.noConfusion h'
      · intro e h'
        rfl

/-- C8 witness: the JSON outcome on a concrete resolved 422 error with
one configured integration performs exactly that integration call with
the resolved error, the request and the response snapshot, and the
emitted status is the resolved error's. -/
theorem claim_C8_witness :
    ∃ fin, [((⟨7⟩ : Integ), cErr422, req0, snapshotRes res0)] =
        integOpts.integrations.map (fun g => (g, fin, req0, snapshotRes res0)) ∧
      (422 : Nat) = fin.fields.status ∧ (422 : Nat) = fin.fields.status :=
  (claim_C8 integOpts [defaultPlugin] cErr422 req0 res0
      [(⟨7⟩, cErr422, req0, snapshotRes res0)]
      (.jsonResp 422 (.one "bad" "UnprocessableEntity" none none none none) 422) rfl).1
    422 (.one "bad" "UnprocessableEntity" none none none none) 422 rfl

end Erred
